import Mathlib

/-!
Verification of the SimpleUI compiler front end: a shallow embedding of
the lexer (src/lexer.py), the AST model (src/ast_nodes.py) and the
grammar-driven transformer (src/parser.py), together with proofs of the
specified properties of tokenization, parsing, defaulting and validation.

Modelling conventions:
* Python strings are Lean strings; scanning works on the underlying list
  of characters.
* Python float values carried by NUMBER literals are modelled as exact
  rationals; the front end performs no arithmetic on them, it only
  stores them, so nothing here depends on IEEE rounding.
* Python exceptions are modelled as Except error values.
* Character classes (str.isdigit, str.isalpha, str.lower, str.upper) are
  modelled on their ASCII fragment, which covers the whole language.
-/

/-- Association-list lookup, modelling Python dict lookup for the small
constant dictionaries of the source (keyword table, color-name table). -/
def lookupL {β : Type} : List (String × β) → String → Option β
  | [], _ => none
  | (a, b) :: t, k => if k = a then some b else lookupL t k

/-- Membership in the 22-character hex-digit string of
Lexer.read_hex_color (src/lexer.py line 203). -/
def hexDigitChars : List Char :=
  ['0', '1', '2', '3', '4', '5', '6', '7', '8', '9',
   'A', 'B', 'C', 'D', 'E', 'F', 'a', 'b', 'c', 'd', 'e', 'f']

def isHexChar (c : Char) : Bool := decide (c ∈ hexDigitChars)

/-- AST node Position (src/ast_nodes.py lines 29-36). -/
structure Position where
  x : ℚ
  y : ℚ
  deriving DecidableEq

/-- AST node Size (src/ast_nodes.py lines 39-46). -/
structure Size where
  width : ℚ
  height : ℚ
  deriving DecidableEq

/-- AST node Color (src/ast_nodes.py lines 49-61): a record holding the
hex string. -/
structure Color where
  hex_value : String
  deriving DecidableEq

/-- Constructing a Color, including the normalization performed by
Color.post_init (src/ast_nodes.py lines 54-58): prepend a hash when the
string does not start with one, then uppercase the whole string
(Char.toUpper is exactly ASCII uppercasing, matching str.upper on the
ASCII strings that occur here). -/
def Color.make (s : String) : Color :=
  let t : List Char := if s.data.head? = some '#' then s.data else '#' :: s.data
  Color.mk (String.mk (t.map Char.toUpper))

/-- AST node Shape (src/ast_nodes.py lines 64-87). -/
structure Shape where
  shape_type : String
  position : Position
  size : Size
  fill_color : Color
  outside_color : Color
  rounded : Bool
  deriving DecidableEq

/-- AST root node ShapeList (src/ast_nodes.py lines 90-111). -/
structure ShapeList where
  shapes : List Shape
  deriving DecidableEq

/-- Decimal value of a run of ASCII digits. -/
def digitsVal (ds : List Char) : Nat :=
  ds.foldl (fun n c => 10 * n + (c.toNat - 48)) 0

/-- Models float(token.value) applied by the transformer to NUMBER
literals (src/parser.py line 50).  NUMBER literals are digit runs with an
optional fractional part; the value is taken exactly, as a rational. -/
def ratOfLit (s : String) : ℚ :=
  let ip := s.data.takeWhile (fun c => c != '.')
  let fp := (s.data.dropWhile (fun c => c != '.')).drop 1
  (digitsVal ip : ℚ) + (digitsVal fp : ℚ) / ((10 : ℚ) ^ fp.length)

/-- Terminal transformation NUMBER of SimpleUITransformer
(src/parser.py lines 49-50). -/
def SimpleUITransformer.NUMBER (v : String) : ℚ := ratOfLit v

/-- Terminal transformation HEX of SimpleUITransformer
(src/parser.py lines 52-53): the Color is built from the literal text. -/
def SimpleUITransformer.HEX (v : String) : Color := Color.make v

/-- The color_map dictionary of SimpleUITransformer.NAME
(src/parser.py lines 56-62). -/
def colorMap : List (String × String) :=
  [("black", "#000000"), ("white", "#FFFFFF"),
   ("red", "#FF0000"), ("green", "#00FF00"),
   ("blue", "#0000FF"), ("yellow", "#FFFF00"),
   ("cyan", "#00FFFF"), ("magenta", "#FF00FF"),
   ("gray", "#808080"), ("grey", "#808080")]

/-- Python str.lower on its ASCII fragment (Char.toLower is exactly
ASCII lowercasing), applied characterwise. -/
def pyLower (s : String) : String := String.mk (s.data.map Char.toLower)

/-- Terminal transformation NAME of SimpleUITransformer
(src/parser.py lines 55-63): look the lowercased name up in color_map,
falling back to black. -/
def SimpleUITransformer.NAME (v : String) : Color :=
  Color.make ((lookupL colorMap (pyLower v)).getD "#000000")

/-- One parsed property clause: the (key, value) tuples produced by the
transformer rules left_pos, top_pos, width, height, fill, outside and
rounded (src/parser.py lines 67-93). -/
inductive PropClause where
  | left (v : ℚ)
  | top (v : ℚ)
  | width (v : ℚ)
  | height (v : ℚ)
  | fill (c : Color)
  | outside (c : Color)
  | rounded
  deriving DecidableEq

/-- The props dictionary of SimpleUITransformer.shape
(src/parser.py lines 136-141). -/
structure ShapeProps where
  left : ℚ
  top : ℚ
  width : Option ℚ
  height : Option ℚ
  fill : Option Color
  outside : Option Color
  rounded : Bool
  deriving DecidableEq

/-- The default property set of SimpleUITransformer.shape
(src/parser.py lines 136-141): position defaults to the origin, width and
height are unset, colors are unset, rounded is false. -/
def defaultProps : ShapeProps :=
  ShapeProps.mk 0 0 none none none none false

/-- One iteration of the clause loop of SimpleUITransformer.shape
(src/parser.py lines 147-150): props[key] = value. -/
def applyClause (p : ShapeProps) : PropClause → ShapeProps
  | .left v => { p with left := v }
  | .top v => { p with top := v }
  | .width v => { p with width := some v }
  | .height v => { p with height := some v }
  | .fill c => { p with fill := some c }
  | .outside c => { p with outside := some c }
  | .rounded => { p with rounded := true }

/-- SimpleUITransformer.shape (src/parser.py lines 108-164): fold the
property clauses over the default set in order, fail when width or
height is still unset, otherwise build the Shape, defaulting unset
colors to black. -/
def SimpleUITransformer.shape (clauses : List PropClause) (shapeName : String) :
    Except String Shape :=
  let props := clauses.foldl applyClause defaultProps
  match props.width, props.height with
  | some w, some h =>
    .ok (Shape.mk shapeName (Position.mk props.left props.top) (Size.mk w h)
      (props.fill.getD (Color.make "#000000"))
      (props.outside.getD (Color.make "#000000"))
      props.rounded)
  | _, _ => .error "Width and height are required"

/-- SimpleUITransformer.start (src/parser.py lines 166-167). -/
def SimpleUITransformer.start (shapes : List Shape) : ShapeList :=
  ShapeList.mk shapes

/-- Token types of the lexer (src/lexer.py lines 32-61). -/
inductive TokenType where
  | NUMBER | HEX_COLOR | COLOR_NAME
  | PX | LEFT | TOP | WIDTH | HEIGHT | FILL | OUTSIDE | ROUNDED
  | RECTANGLE | CIRCLE | LINE
  | COMMA | SEMICOLON | COLON
  | EOF | INVALID
  deriving DecidableEq

/-- A token with its literal value and 1-based position
(src/lexer.py lines 64-73). -/
structure Token where
  type : TokenType
  value : String
  line : Nat
  column : Nat
  deriving DecidableEq

/-- The LexerError exception (src/lexer.py lines 76-82). -/
structure LexerError where
  message : String
  line : Nat
  column : Nat
  deriving DecidableEq

/-- The keyword table of the lexer (src/lexer.py lines 105-117). -/
def KEYWORDS : List (String × TokenType) :=
  [("px", .PX), ("left", .LEFT), ("top", .TOP),
   ("w", .WIDTH), ("h", .HEIGHT),
   ("fill", .FILL), ("outside", .OUTSIDE), ("rounded", .ROUNDED),
   ("rectangle", .RECTANGLE), ("circle", .CIRCLE), ("line", .LINE)]

/-- The whitespace characters skipped by skip_whitespace
(src/lexer.py lines 160-163). -/
def isWsChar (c : Char) : Bool :=
  decide (c ∈ [' ', '\t', '\n', '\r'])

/-- Position update of Lexer.advance (src/lexer.py lines 148-158):
a newline starts the next line at column 1, anything else moves one
column right. -/
def advancePos (line col : Nat) (c : Char) : Nat × Nat :=
  if c = '\n' then (line + 1, 1) else (line, col + 1)

/-- Lexer.skip_comment (src/lexer.py lines 165-171): consume characters
up to and including the next newline (or to the end of input). -/
def dropLine : List Char → Nat → Nat → List Char × Nat × Nat
  | [], line, col => ([], line, col)
  | c :: cs, line, col =>
    if c = '\n' then (cs, line + 1, 1)
    else dropLine cs line (col + 1)

/-- Identifier characters of read_identifier (src/lexer.py line 219):
letters, digits and underscore. -/
def isIdentChar (c : Char) : Bool := c.isAlphanum || c = '_'

/-- Lexer.read_number (src/lexer.py lines 173-192): a run of digits,
optionally followed by a dot and at least one more digit.  The consumed
characters are digits or a dot, never a newline, so the line stays and
the column advances by the number of characters consumed. -/
def readNumber (s : List Char) (line col : Nat) :
    Token × List Char × Nat × Nat :=
  let d1 := s.takeWhile Char.isDigit
  let r1 := s.dropWhile Char.isDigit
  match r1 with
  | '.' :: c2 :: r2 =>
    if c2.isDigit then
      let d2 := (c2 :: r2).takeWhile Char.isDigit
      let r3 := (c2 :: r2).dropWhile Char.isDigit
      (Token.mk .NUMBER (String.mk (d1 ++ '.' :: d2)) line col, r3,
        line, col + d1.length + 1 + d2.length)
    else
      (Token.mk .NUMBER (String.mk d1) line col, r1, line, col + d1.length)
  | _ => (Token.mk .NUMBER (String.mk d1) line col, r1, line, col + d1.length)

/-- The message of the malformed-hex LexerError
(src/lexer.py line 209; the source wraps the color text in single
quotes, omitted here). -/
def hexErrMsg (colorStr : String) : String :=
  "Invalid hex color " ++ colorStr ++ " - expected 6 hex digits"

/-- Lexer.read_hex_color (src/lexer.py lines 194-211), entered after the
hash character; line and col are the position of the hash.  At most six
hex characters are consumed; when fewer than six are available before a
non-hex character or the end of input, the error carries the position of
the hash.  Hex characters are never newlines, so on success the column
advances by seven (the hash plus six digits). -/
def readHexColor (rest : List Char) (line col : Nat) :
    Except LexerError (Token × List Char × Nat × Nat) :=
  let hexs := (rest.takeWhile isHexChar).take 6
  if hexs.length = 6 then
    .ok (Token.mk .HEX_COLOR (String.mk ('#' :: hexs)) line col,
      rest.drop 6, line, col + 7)
  else
    .error (LexerError.mk (hexErrMsg (String.mk ('#' :: hexs))) line col)

/-- Lexer.read_identifier (src/lexer.py lines 213-229): consume
identifier characters, look the lowercased text up in the keyword table,
and fall back to COLOR_NAME.  The token keeps the original spelling. -/
def readIdentifier (s : List Char) (line col : Nat) :
    Token × List Char × Nat × Nat :=
  let idc := s.takeWhile isIdentChar
  let rest := s.dropWhile isIdentChar
  let idStr := String.mk idc
  (Token.mk ((lookupL KEYWORDS (pyLower idStr)).getD .COLOR_NAME) idStr line col,
    rest, line, col + idc.length)

/-- The message of the unexpected-character LexerError
(src/lexer.py line 307; the source wraps the character in single quotes,
omitted here). -/
def unexpErrMsg (c : Char) : String :=
  "Unexpected character " ++ String.mk [c]

/-- The main loop of Lexer.tokenize (src/lexer.py lines 256-312), with a
structural fuel argument; every iteration consumes at least one source
character, so fuel exceeding the input length never runs out.
Whitespace is skipped one character per iteration (equivalent to the
skip_whitespace run in the source loop); the remaining branches mirror
the source dispatch: comment, number, hex color, identifier,
punctuation, unexpected character; an EOF token is appended at the final
position. -/
def tokenizeLoopF : Nat → List Char → Nat → Nat → List Token →
    Except LexerError (List Token)
  | 0, _, line, col, _ => .error (LexerError.mk "fuel exhausted" line col)
  | _ + 1, [], line, col, acc => .ok (acc ++ [Token.mk .EOF "" line col])
  | fuel + 1, c :: cs, line, col, acc =>
    if isWsChar c then
      tokenizeLoopF fuel cs (advancePos line col c).1 (advancePos line col c).2 acc
    else if c = '/' ∧ cs.head? = some '/' then
      let r := dropLine (c :: cs) line col
      tokenizeLoopF fuel r.1 r.2.1 r.2.2 acc
    else if c.isDigit then
      let r := readNumber (c :: cs) line col
      tokenizeLoopF fuel r.2.1 r.2.2.1 r.2.2.2 (acc ++ [r.1])
    else if c = '#' then
      match readHexColor cs line col with
      | .error e => .error e
      | .ok (tok, rest, l2, c2) => tokenizeLoopF fuel rest l2 c2 (acc ++ [tok])
    else if c.isAlpha then
      let r := readIdentifier (c :: cs) line col
      tokenizeLoopF fuel r.2.1 r.2.2.1 r.2.2.2 (acc ++ [r.1])
    else if c = ',' then
      tokenizeLoopF fuel cs line (col + 1) (acc ++ [Token.mk .COMMA (String.mk [c]) line col])
    else if c = ';' then
      tokenizeLoopF fuel cs line (col + 1) (acc ++ [Token.mk .SEMICOLON (String.mk [c]) line col])
    else if c = ':' then
      tokenizeLoopF fuel cs line (col + 1) (acc ++ [Token.mk .COLON (String.mk [c]) line col])
    else
      .error (LexerError.mk (unexpErrMsg c) line col)

/-- Lexer.tokenize on a whole source string (src/lexer.py lines 231-312),
starting at line 1, column 1 with an empty token list. -/
def tokenize (src : String) : Except LexerError (List Token) :=
  tokenizeLoopF (src.data.length + 1) src.data 1 1 []

/-- The three error kinds the core surfaces (spec section 7). -/
inductive ErrKind where
  | lexical | syntactic | semantic
  deriving DecidableEq

/-- The distinct error values propagated by the core, modelling the three
exception classes a caller can receive: LexerError
(src/lexer.py lines 76-82), the parse-engine syntax exceptions, and the
ValueError raised for a missing width or height
(src/parser.py lines 152-154), which src/compiler.py lines 97-100
catches as the semantic case. -/
inductive CoreErr where
  | lexical (msg : String) (line col : Nat)
  | syntactic (msg : String)
  | semantic (msg : String)
  deriving DecidableEq

/-- The kind of a propagated error value. -/
def CoreErr.kind : CoreErr → ErrKind
  | .lexical _ _ _ => .lexical
  | .syntactic _ => .syntactic
  | .semantic _ => .semantic

/-- Modelled from the spec: grammar.lark is not part of the repository
sources, so the color alternative of the grammar (spec section 4.2,
"where color is either a HEX_COLOR literal or a COLOR_NAME identifier")
is modelled here; terminal values are handed to the transformer exactly
as src/parser.py does. -/
def parseColor : List Token → Except String (Color × List Token)
  | [] => .error "unexpected end of input, expected a color"
  | t :: rest =>
    if t.type = .HEX_COLOR then .ok (SimpleUITransformer.HEX t.value, rest)
    else if t.type = .COLOR_NAME then .ok (SimpleUITransformer.NAME t.value, rest)
    else .error "expected a color"

/-- Modelled from the spec: grammar.lark is not part of the repository
sources, so the property alternatives of the grammar (spec sections 4.2
and 6: NUMBER px left, NUMBER px top, w : NUMBER px, h : NUMBER px,
fill : color, outside : color, rounded) are modelled here; each
alternative produces the clause built by the corresponding transformer
rule of src/parser.py lines 67-93. -/
def parseProperty : List Token → Except String (PropClause × List Token)
  | [] => .error "unexpected end of input, expected a property"
  | t :: rest =>
    match t.type with
    | .NUMBER =>
      match rest with
      | p :: d :: rest2 =>
        if p.type = .PX ∧ d.type = .LEFT then
          .ok (.left (SimpleUITransformer.NUMBER t.value), rest2)
        else if p.type = .PX ∧ d.type = .TOP then
          .ok (.top (SimpleUITransformer.NUMBER t.value), rest2)
        else .error "expected px left or px top after a number"
      | _ => .error "expected px left or px top after a number"
    | .WIDTH =>
      match rest with
      | c :: n :: p :: rest2 =>
        if c.type = .COLON ∧ n.type = .NUMBER ∧ p.type = .PX then
          .ok (.width (SimpleUITransformer.NUMBER n.value), rest2)
        else .error "expected a colon, a number and px after w"
      | _ => .error "expected a colon, a number and px after w"
    | .HEIGHT =>
      match rest with
      | c :: n :: p :: rest2 =>
        if c.type = .COLON ∧ n.type = .NUMBER ∧ p.type = .PX then
          .ok (.height (SimpleUITransformer.NUMBER n.value), rest2)
        else .error "expected a colon, a number and px after h"
      | _ => .error "expected a colon, a number and px after h"
    | .FILL =>
      match rest with
      | c :: rest2 =>
        if c.type = .COLON then
          match parseColor rest2 with
          | .error e => .error e
          | .ok (col, rest3) => .ok (.fill col, rest3)
        else .error "expected a colon after fill"
      | _ => .error "expected a colon after fill"
    | .OUTSIDE =>
      match rest with
      | c :: rest2 =>
        if c.type = .COLON then
          match parseColor rest2 with
          | .error e => .error e
          | .ok (col, rest3) => .ok (.outside col, rest3)
        else .error "expected a colon after outside"
      | _ => .error "expected a colon after outside"
    | .ROUNDED => .ok (.rounded, rest)
    | _ => .error "expected a property clause"

/-- Whether a token is one of the three terminal shape names
(spec section 4.2: rectangle, circle or line ends the statement). -/
def isShapeNameTok (t : Token) : Prop :=
  t.type = .RECTANGLE ∨ t.type = .CIRCLE ∨ t.type = .LINE

instance (t : Token) : Decidable (isShapeNameTok t) := by
  unfold isShapeNameTok; infer_instance

/-- Modelled from the spec: grammar.lark is not part of the repository
sources, so the shape statement rule (spec sections 4.2 and 6: a
comma-separated list of zero or more property clauses followed by a
mandatory shape-name token and the mandatory semicolon terminator) is
modelled here with a structural fuel argument; each recursive step
consumes at least one token.  The shape-name token keeps its literal
spelling, exactly as SimpleUITransformer.shape_name returns the token
value (src/parser.py lines 102-105). -/
def parseShapeStmtF : Nat → List Token →
    Except String (List PropClause × String × List Token)
  | 0, _ => .error "fuel exhausted"
  | _ + 1, [] => .error "unexpected end of input in a shape statement"
  | fuel + 1, t :: rest =>
    if isShapeNameTok t then
      match rest with
      | s :: rest2 =>
        if s.type = .SEMICOLON then .ok ([], t.value, rest2)
        else .error "expected a semicolon after the shape name"
      | [] => .error "expected a semicolon after the shape name"
    else
      match parseProperty (t :: rest) with
      | .error e => .error e
      | .ok (cl, rest2) =>
        match rest2 with
        | s :: rest3 =>
          if s.type = .COMMA then
            match parseShapeStmtF fuel rest3 with
            | .error e => .error e
            | .ok (cls, nm, rest4) => .ok (cl :: cls, nm, rest4)
          else .error "expected a comma after a property clause"
        | [] => .error "expected a comma after a property clause"

/-- Modelled from the spec: the statement decomposition of a token
stream, in textual order, without transforming the statements into
shapes.  This is the reference order for the ordering invariant of
spec section 3. -/
def statementsOfF : Nat → List Token →
    Except String (List (List PropClause × String))
  | 0, _ => .error "fuel exhausted"
  | fuel + 1, ts =>
    match ts with
    | [] => .ok []
    | t :: rest =>
      if t.type = .EOF then .ok []
      else
        match parseShapeStmtF (fuel + 1) (t :: rest) with
        | .error e => .error e
        | .ok (cls, nm, rest2) =>
          match statementsOfF fuel rest2 with
          | .error e => .error e
          | .ok stmts => .ok ((cls, nm) :: stmts)

/-- Modelled from the spec: the program rule (spec section 4.2, "a
program is zero or more shape statements"); each statement is handed to
SimpleUITransformer.shape as soon as it is reduced, and its ValueError
is propagated as the semantic error value, grammar violations as the
syntactic one. -/
def parseProgramF : Nat → List Token → Except CoreErr (List Shape)
  | 0, _ => .error (.syntactic "fuel exhausted")
  | fuel + 1, ts =>
    match ts with
    | [] => .ok []
    | t :: rest =>
      if t.type = .EOF then .ok []
      else
        match parseShapeStmtF (fuel + 1) (t :: rest) with
        | .error e => .error (.syntactic e)
        | .ok (cls, nm, rest2) =>
          match SimpleUITransformer.shape cls nm with
          | .error m => .error (.semantic m)
          | .ok sh =>
            match parseProgramF fuel rest2 with
            | .error e => .error e
            | .ok shs => .ok (sh :: shs)

/-- The statement decomposition of a token stream. -/
def statementsOf (ts : List Token) :
    Except String (List (List PropClause × String)) :=
  statementsOfF (ts.length + 1) ts

/-- Parser.parse (src/parser.py lines 217-237): tokenize the source and
reduce it statement by statement through the transformer into the
ShapeList built by SimpleUITransformer.start.  Modelled from the spec
where the missing grammar.lark decides the token sequence structure; the
token grammar itself is the lexer of src/lexer.py, which spec section 2
requires to be identical to the parser-internal one. -/
def parse (src : String) : Except CoreErr ShapeList :=
  match tokenize src with
  | .error e => .error (.lexical e.message e.line e.column)
  | .ok toks =>
    match parseProgramF (toks.length + 1) toks with
    | .error e => .error e
    | .ok shapes => .ok (SimpleUITransformer.start shapes)

/-- The property key of a clause: the first component of the tuples
built by the transformer property rules (src/parser.py lines 67-93). -/
inductive PropKey where
  | left | top | width | height | fill | outside | rounded
  deriving DecidableEq

/-- The key under which a clause is written into the props dictionary. -/
def clauseKey : PropClause → PropKey
  | .left _ => .left
  | .top _ => .top
  | .width _ => .width
  | .height _ => .height
  | .fill _ => .fill
  | .outside _ => .outside
  | .rounded => .rounded

/-- The possible values of props entries: numbers, colors or flags. -/
inductive PropVal where
  | num (v : ℚ)
  | col (c : Color)
  | flag (b : Bool)
  deriving DecidableEq

/-- The value a clause writes into the props dictionary; the rounded
rule writes True (src/parser.py lines 91-93). -/
def clauseVal : PropClause → PropVal
  | .left v => .num v
  | .top v => .num v
  | .width v => .num v
  | .height v => .num v
  | .fill c => .col c
  | .outside c => .col c
  | .rounded => .flag true

/-- Reading one entry of the props dictionary. -/
def getProp (p : ShapeProps) : PropKey → Option PropVal
  | .left => some (.num p.left)
  | .top => some (.num p.top)
  | .width => p.width.map .num
  | .height => p.height.map .num
  | .fill => p.fill.map .col
  | .outside => p.outside.map .col
  | .rounded => some (.flag p.rounded)

/-- Reading the Shape field a props entry ends up in
(src/parser.py lines 157-164). -/
def shapeField (sh : Shape) : PropKey → PropVal
  | .left => .num sh.position.x
  | .top => .num sh.position.y
  | .width => .num sh.size.width
  | .height => .num sh.size.height
  | .fill => .col sh.fill_color
  | .outside => .col sh.outside_color
  | .rounded => .flag sh.rounded

theorem getProp_applyClause_self (p : ShapeProps) (c : PropClause) :
    getProp (applyClause p c) (clauseKey c) = some (clauseVal c) := by
  cases c <;> rfl

theorem getProp_applyClause_ne (p : ShapeProps) (c : PropClause) (k : PropKey)
    (h : clauseKey c ≠ k) : getProp (applyClause p c) k = getProp p k := by
  cases c <;> cases k <;> simp_all [applyClause, clauseKey, getProp]

theorem getProp_foldl_ne (post : List PropClause) (k : PropKey) :
    (∀ c' ∈ post, clauseKey c' ≠ k) → ∀ p : ShapeProps,
      getProp (post.foldl applyClause p) k = getProp p k := by
  induction post with
  | nil => intro _ p; rfl
  | cons c' t ih =>
    intro h p
    rw [List.foldl_cons, ih (fun x hx => h x (List.mem_cons_of_mem c' hx))]
    exact getProp_applyClause_ne p c' k (h c' (List.mem_cons_self c' t))

theorem isHexChar_ne_hash {c : Char} (h : isHexChar c = true) : c ≠ '#' := by
  intro he
  subst he
  exact absurd h (by decide)

/-- Claim C3: constructing a Color from six hex digits, with or without
a leading hash and in any letter case, always yields the hash followed
by the same six digits uppercased. -/
theorem c3_color_roundtrip (ds : List Char) (h6 : ds.length = 6)
    (hhex : ∀ c ∈ ds, isHexChar c = true) :
    Color.make (String.mk ds) =
      Color.mk (String.mk ('#' :: ds.map Char.toUpper)) ∧
    Color.make (String.mk ('#' :: ds)) =
      Color.mk (String.mk ('#' :: ds.map Char.toUpper)) := by
  constructor
  · cases ds with
    | nil => simp at h6
    | cons c t =>
      have hc : c ≠ '#' := isHexChar_ne_hash (hhex c (by simp))
      simp [Color.make, hc, show Char.toUpper '#' = '#' from rfl]
  · simp [Color.make, show Char.toUpper '#' = '#' from rfl]

/-- Claim C3 witness at the string ff00aa. -/
theorem c3_color_roundtrip_witness :
    ("ff00aa".data.length = 6 ∧ ∀ c ∈ "ff00aa".data, isHexChar c = true) ∧
    (Color.make (String.mk "ff00aa".data) =
       Color.mk (String.mk ('#' :: "ff00aa".data.map Char.toUpper)) ∧
     Color.make (String.mk ('#' :: "ff00aa".data)) =
       Color.mk (String.mk ('#' :: "ff00aa".data.map Char.toUpper))) :=
  ⟨⟨rfl, by decide⟩, c3_color_roundtrip "ff00aa".data rfl (by decide)⟩

/-- Claim C7: color names are resolved through the fixed
case-insensitive table, and every name missing from the table resolves
to black without an error. -/
theorem c7_color_name_table :
    (∀ s t : String, pyLower s = pyLower t →
      SimpleUITransformer.NAME s = SimpleUITransformer.NAME t) ∧
    (∀ s : String, lookupL colorMap (pyLower s) = none →
      SimpleUITransformer.NAME s = Color.mk "#000000") ∧
    SimpleUITransformer.NAME "black" = Color.mk "#000000" ∧
    SimpleUITransformer.NAME "White" = Color.mk "#FFFFFF" ∧
    SimpleUITransformer.NAME "RED" = Color.mk "#FF0000" ∧
    SimpleUITransformer.NAME "green" = Color.mk "#00FF00" ∧
    SimpleUITransformer.NAME "Blue" = Color.mk "#0000FF" ∧
    SimpleUITransformer.NAME "yellow" = Color.mk "#FFFF00" ∧
    SimpleUITransformer.NAME "cyan" = Color.mk "#00FFFF" ∧
    SimpleUITransformer.NAME "Magenta" = Color.mk "#FF00FF" ∧
    SimpleUITransformer.NAME "gray" = Color.mk "#808080" ∧
    SimpleUITransformer.NAME "GREY" = Color.mk "#808080" := by
  refine ⟨?_, ?_, ?_, ?_, ?_, ?_, ?_, ?_, ?_, ?_, ?_, ?_⟩
  · intro s t h
    unfold SimpleUITransformer.NAME
    rw [h]
  · intro s h
    unfold SimpleUITransformer.NAME
    rw [h]
    rfl
  all_goals decide

/-- Claim C7 witness: the unknown name chartreuse resolves to black. -/
theorem c7_color_name_table_witness :
    lookupL colorMap (pyLower "chartreuse") = none ∧
    SimpleUITransformer.NAME "chartreuse" = Color.mk "#000000" :=
  ⟨by decide, c7_color_name_table.2.1 "chartreuse" (by decide)⟩

/-- Claim C1 counterexample: at the statement h:100px, rectangle; the
transformer raises the message with a capital W, so the error value
differs from the one with the lowercase message the claim quotes. -/
theorem c1_counterexample :
    SimpleUITransformer.shape [PropClause.height 100] "rectangle" ≠
      Except.error "width and height are required" ∧
    SimpleUITransformer.shape [PropClause.height 100] "rectangle" =
      Except.error "Width and height are required" := by
  refine ⟨fun h => ?_, rfl⟩
  rw [show SimpleUITransformer.shape [PropClause.height 100] "rectangle" =
    Except.error "Width and height are required" from rfl] at h
  exact absurd (Except.error.inj h) (by decide)

/-- Claim C1 (amended): whenever the folded property set leaves width or
height unset, the transformer fails with the semantic error message
Width and height are required, and no Shape is constructed. -/
theorem c1_missing_size_error (clauses : List PropClause) (shapeName : String)
    (h : (clauses.foldl applyClause defaultProps).width = none ∨
         (clauses.foldl applyClause defaultProps).height = none) :
    SimpleUITransformer.shape clauses shapeName =
      .error "Width and height are required" := by
  cases hw : (clauses.foldl applyClause defaultProps).width with
  | none => simp [SimpleUITransformer.shape, hw]
  | some w =>
    cases hh : (clauses.foldl applyClause defaultProps).height with
    | none => simp [SimpleUITransformer.shape, hw, hh]
    | some v => simp_all

/-- Claim C1 witness at the statement h:100px, rectangle;. -/
theorem c1_missing_size_error_witness :
    (([PropClause.height 100].foldl applyClause defaultProps).width = none ∨
     ([PropClause.height 100].foldl applyClause defaultProps).height = none) ∧
    SimpleUITransformer.shape [PropClause.height 100] "rectangle" =
      .error "Width and height are required" :=
  ⟨Or.inl rfl, c1_missing_size_error _ _ (Or.inl rfl)⟩

/-- How the fields of a successfully constructed Shape are read off the
folded property set (src/parser.py lines 152-164). -/
theorem shape_ok_props (cls : List PropClause) (nm : String) (sh : Shape)
    (h : SimpleUITransformer.shape cls nm = .ok sh) :
    sh.shape_type = nm ∧
    sh.position = Position.mk (cls.foldl applyClause defaultProps).left
      (cls.foldl applyClause defaultProps).top ∧
    (cls.foldl applyClause defaultProps).width = some sh.size.width ∧
    (cls.foldl applyClause defaultProps).height = some sh.size.height ∧
    sh.fill_color =
      ((cls.foldl applyClause defaultProps).fill).getD (Color.make "#000000") ∧
    sh.outside_color =
      ((cls.foldl applyClause defaultProps).outside).getD (Color.make "#000000") ∧
    sh.rounded = (cls.foldl applyClause defaultProps).rounded := by
  simp only [SimpleUITransformer.shape] at h
  split at h
  next w hv heq1 heq2 =>
    cases h
    exact ⟨rfl, rfl, heq1, heq2, rfl, rfl, rfl⟩
  next => simp at h

/-- Claim C4: clauses are applied to the default set as key/value
overwrites in order, so the folded property set and the constructed
Shape both carry, for any key, the value of its last-occurring clause. -/
theorem c4_last_wins (pre post : List PropClause) (c : PropClause)
    (shapeName : String)
    (hpost : ∀ c' ∈ post, clauseKey c' ≠ clauseKey c) :
    getProp ((pre ++ c :: post).foldl applyClause defaultProps) (clauseKey c) =
      some (clauseVal c) ∧
    ∀ sh, SimpleUITransformer.shape (pre ++ c :: post) shapeName = .ok sh →
      shapeField sh (clauseKey c) = clauseVal c := by
  have hget : getProp ((pre ++ c :: post).foldl applyClause defaultProps)
      (clauseKey c) = some (clauseVal c) := by
    rw [List.foldl_append, List.foldl_cons,
      getProp_foldl_ne post (clauseKey c) hpost]
    exact getProp_applyClause_self _ c
  refine ⟨hget, ?_⟩
  intro sh hok
  obtain ⟨-, hpos, hw, hh, hfill, hout, hrnd⟩ := shape_ok_props _ _ _ hok
  cases hk : clauseKey c <;> rw [hk] at hget <;> simp only [getProp] at hget
  case left =>
    simp only [shapeField, hpos]
    exact Option.some.inj hget
  case top =>
    simp only [shapeField, hpos]
    exact Option.some.inj hget
  case width =>
    rw [hw, Option.map_some'] at hget
    simp only [shapeField]
    exact Option.some.inj hget
  case height =>
    rw [hh, Option.map_some'] at hget
    simp only [shapeField]
    exact Option.some.inj hget
  case fill =>
    cases hf : ((pre ++ c :: post).foldl applyClause defaultProps).fill with
    | none => rw [hf] at hget; simp at hget
    | some cc =>
      rw [hf, Option.map_some'] at hget
      simp only [shapeField, hfill, hf, Option.getD_some]
      exact Option.some.inj hget
  case outside =>
    cases hf : ((pre ++ c :: post).foldl applyClause defaultProps).outside with
    | none => rw [hf] at hget; simp at hget
    | some cc =>
      rw [hf, Option.map_some'] at hget
      simp only [shapeField, hout, hf, Option.getD_some]
      exact Option.some.inj hget
  case rounded =>
    simp only [shapeField, hrnd]
    exact Option.some.inj hget

/-- Claim C4 witness: of two fill clauses the later one ends up in the
Shape. -/
theorem c4_last_wins_witness :
    (∀ c' ∈ [PropClause.width 10, PropClause.height 10],
      clauseKey c' ≠ clauseKey (PropClause.fill (Color.mk "#00FF00"))) ∧
    shapeField
      (Shape.mk "rectangle" (Position.mk 0 0) (Size.mk 10 10)
        (Color.mk "#00FF00") (Color.make "#000000") false)
      (clauseKey (PropClause.fill (Color.mk "#00FF00"))) =
    clauseVal (PropClause.fill (Color.mk "#00FF00")) :=
  ⟨by decide,
    (c4_last_wins [PropClause.fill (Color.mk "#FF0000")]
      [PropClause.width 10, PropClause.height 10]
      (PropClause.fill (Color.mk "#00FF00")) "rectangle" (by decide)).2
      (Shape.mk "rectangle" (Position.mk 0 0) (Size.mk 10 10)
        (Color.mk "#00FF00") (Color.make "#000000") false) rfl⟩

theorem lookupL_mem {β : Type} (m : List (String × β)) (k : String) (v : β)
    (h : lookupL m k = some v) : v ∈ m.map Prod.snd := by
  induction m with
  | nil => simp [lookupL] at h
  | cons p t ih =>
    obtain ⟨a, b⟩ := p
    simp only [lookupL] at h
    split at h
    · cases h
      simp
    · simp only [List.map_cons, List.mem_cons]
      exact Or.inr (ih h)

/-- Well-formedness of a HEX_COLOR token value: a hash followed by
exactly six hex characters. -/
def hexTokenWF (v : String) : Bool :=
  (v.data.head? == some '#') && (v.data.tail.length == 6) &&
    v.data.tail.all isHexChar

/-- Tokens the lexer may emit: never INVALID, and HEX_COLOR tokens carry
a well-formed hash-plus-six-hex-digits value. -/
def goodToken (t : Token) : Prop :=
  t.type ≠ TokenType.INVALID ∧
  (t.type = TokenType.HEX_COLOR → hexTokenWF t.value = true)

theorem readNumber_type (s : List Char) (line col : Nat) :
    (readNumber s line col).1.type = TokenType.NUMBER := by
  simp only [readNumber]
  split
  · split <;> rfl
  · rfl

theorem readIdentifier_type (s : List Char) (line col : Nat) :
    (readIdentifier s line col).1.type ≠ TokenType.INVALID ∧
    (readIdentifier s line col).1.type ≠ TokenType.HEX_COLOR := by
  simp only [readIdentifier]
  cases hv : lookupL KEYWORDS (pyLower (String.mk (s.takeWhile isIdentChar))) with
  | none => exact ⟨by decide, by decide⟩
  | some v =>
    simp only [Option.getD_some]
    have hm := lookupL_mem _ _ _ hv
    fin_cases hm <;> exact ⟨by decide, by decide⟩

theorem readHexColor_ok (rest : List Char) (line col : Nat) (tok : Token)
    (r : List Char) (l2 c2 : Nat)
    (h : readHexColor rest line col = .ok (tok, r, l2, c2)) :
    tok.type = TokenType.HEX_COLOR ∧ hexTokenWF tok.value = true := by
  simp only [readHexColor] at h
  split at h
  next hlen =>
    cases h
    refine ⟨rfl, ?_⟩
    unfold hexTokenWF
    rw [Bool.and_eq_true, Bool.and_eq_true]
    refine ⟨⟨rfl, ?_⟩, ?_⟩
    · simp only [List.tail_cons, hlen]
      rfl
    · simp only [List.tail_cons]
      rw [List.all_eq_true]
      intro c hc
      exact List.mem_takeWhile_imp (List.mem_of_mem_take hc)
  next => exact absurd h (by simp)

/-- When the scanning loop is at a hash followed by fewer than six hex
characters before a non-hex character or the end of input, it raises the
invalid-hex error at the position of the hash. -/
theorem tokenizeLoopF_hash_error (fuel : Nat) (s : List Char)
    (line col : Nat) (acc : List Token)
    (hshort : (s.takeWhile isHexChar).length < 6) :
    tokenizeLoopF (fuel + 1) ('#' :: s) line col acc =
      .error (LexerError.mk
        (hexErrMsg (String.mk ('#' :: s.takeWhile isHexChar))) line col) := by
  rw [tokenizeLoopF]
  rw [if_neg (by decide : ¬ (isWsChar '#' = true))]
  rw [if_neg (fun hx => absurd hx.1 (by decide))]
  rw [if_neg (by decide : ¬ (Char.isDigit '#' = true))]
  rw [if_pos rfl]
  have htake : (s.takeWhile isHexChar).take 6 = s.takeWhile isHexChar :=
    List.take_of_length_le (Nat.le_of_lt hshort)
  simp only [readHexColor, htake]
  rw [if_neg (Nat.ne_of_lt hshort)]

/-- Claim C6: when the scanner encounters a hash followed by fewer than
six hex characters before a non-hex character or the end of input,
tokenization fails with the invalid-hex LexerError whose line and column
are those of the hash, instead of emitting a truncated HEX_COLOR
token. -/
theorem c6_malformed_hex (s : List Char) (line col : Nat) (acc : List Token)
    (fuel : Nat) (hshort : (s.takeWhile isHexChar).length < 6) :
    tokenizeLoopF (fuel + 1) ('#' :: s) line col acc =
      .error (LexerError.mk
        (hexErrMsg (String.mk ('#' :: s.takeWhile isHexChar))) line col) ∧
    tokenize (String.mk ('#' :: s)) =
      .error (LexerError.mk
        (hexErrMsg (String.mk ('#' :: s.takeWhile isHexChar))) 1 1) :=
  ⟨tokenizeLoopF_hash_error fuel s line col acc hshort,
    tokenizeLoopF_hash_error (s.length + 1) s 1 1 [] hshort⟩

/-- Claim C6 witness at the suffix 12; after a hash sitting at line 2,
column 5. -/
theorem c6_malformed_hex_witness :
    (("12;".data.takeWhile isHexChar).length < 6) ∧
    (tokenizeLoopF 1 ('#' :: "12;".data) 2 5 [] =
      .error (LexerError.mk
        (hexErrMsg (String.mk ('#' :: "12;".data.takeWhile isHexChar))) 2 5) ∧
     tokenize (String.mk ('#' :: "12;".data)) =
      .error (LexerError.mk
        (hexErrMsg (String.mk ('#' :: "12;".data.takeWhile isHexChar))) 1 1)) :=
  ⟨by decide, c6_malformed_hex "12;".data 2 5 [] 0 (by decide)⟩

/-- Every token the scanning loop appends is a good token: the loop
never emits INVALID, and every HEX_COLOR value is a hash plus six hex
digits. -/
theorem tokenizeLoopF_good (fuel : Nat) :
    ∀ (s : List Char) (line col : Nat) (acc toks : List Token),
      tokenizeLoopF fuel s line col acc = .ok toks →
      (∀ t ∈ acc, goodToken t) → ∀ t ∈ toks, goodToken t := by
  induction fuel with
  | zero =>
    intro s line col acc toks h
    simp [tokenizeLoopF] at h
  | succ fuel ih =>
    intro s line col acc toks h hacc
    cases s with
    | nil =>
      rw [tokenizeLoopF] at h
      cases h
      intro t ht
      rcases List.mem_append.mp ht with h1 | h1
      · exact hacc t h1
      · rw [List.mem_singleton] at h1
        subst h1
        exact ⟨fun hx => TokenType.noConfusion hx,
          fun hx => TokenType.noConfusion hx⟩
    | cons c cs =>
      rw [tokenizeLoopF] at h
      by_cases h1 : isWsChar c = true
      · rw [if_pos h1] at h
        exact ih _ _ _ _ _ h hacc
      · rw [if_neg h1] at h
        by_cases h2 : c = '/' ∧ cs.head? = some '/'
        · rw [if_pos h2] at h
          exact ih _ _ _ _ _ h hacc
        · rw [if_neg h2] at h
          by_cases h3 : c.isDigit = true
          · rw [if_pos h3] at h
            refine ih _ _ _ _ _ h ?_
            intro t ht
            rcases List.mem_append.mp ht with hm | hm
            · exact hacc t hm
            · rw [List.mem_singleton] at hm
              subst hm
              constructor
              · rw [readNumber_type]; decide
              · rw [readNumber_type]; intro hx; exact TokenType.noConfusion hx
          · rw [if_neg h3] at h
            by_cases h4 : c = '#'
            · rw [if_pos h4] at h
              cases hrh : readHexColor cs line col with
              | error e => rw [hrh] at h; simp at h
              | ok r =>
                obtain ⟨tok, rest, l2, c2⟩ := r
                rw [hrh] at h
                refine ih _ _ _ _ _ h ?_
                intro t ht
                rcases List.mem_append.mp ht with hm | hm
                · exact hacc t hm
                · rw [List.mem_singleton] at hm
                  obtain ⟨hty, hwf⟩ := readHexColor_ok cs line col tok rest l2 c2 hrh
                  subst hm
                  exact ⟨by rw [hty]; decide, fun _ => hwf⟩
            · rw [if_neg h4] at h
              by_cases h5 : c.isAlpha = true
              · rw [if_pos h5] at h
                refine ih _ _ _ _ _ h ?_
                intro t ht
                rcases List.mem_append.mp ht with hm | hm
                · exact hacc t hm
                · rw [List.mem_singleton] at hm
                  subst hm
                  obtain ⟨hi, hh⟩ := readIdentifier_type (c :: cs) line col
                  exact ⟨hi, fun hx => absurd hx hh⟩
              · rw [if_neg h5] at h
                by_cases h6 : c = ','
                · rw [if_pos h6] at h
                  refine ih _ _ _ _ _ h ?_
                  intro t ht
                  rcases List.mem_append.mp ht with hm | hm
                  · exact hacc t hm
                  · rw [List.mem_singleton] at hm
                    subst hm
                    exact ⟨fun hx => TokenType.noConfusion hx,
                      fun hx => TokenType.noConfusion hx⟩
                · rw [if_neg h6] at h
                  by_cases h7 : c = ';'
                  · rw [if_pos h7] at h
                    refine ih _ _ _ _ _ h ?_
                    intro t ht
                    rcases List.mem_append.mp ht with hm | hm
                    · exact hacc t hm
                    · rw [List.mem_singleton] at hm
                      subst hm
                      exact ⟨fun hx => TokenType.noConfusion hx,
                        fun hx => TokenType.noConfusion hx⟩
                  · rw [if_neg h7] at h
                    by_cases h8 : c = ':'
                    · rw [if_pos h8] at h
                      refine ih _ _ _ _ _ h ?_
                      intro t ht
                      rcases List.mem_append.mp ht with hm | hm
                      · exact hacc t hm
                      · rw [List.mem_singleton] at hm
                        subst hm
                        exact ⟨fun hx => TokenType.noConfusion hx,
                          fun hx => TokenType.noConfusion hx⟩
                    · rw [if_neg h8] at h
                      simp at h

/-- Claim C10: whenever tokenize returns a token list, no token in it
has type INVALID; malformed input is raised as a LexerError instead. -/
theorem c10_no_invalid (src : String) (toks : List Token)
    (h : tokenize src = .ok toks) :
    ∀ t ∈ toks, t.type ≠ TokenType.INVALID := by
  intro t ht
  exact (tokenizeLoopF_good _ _ _ _ _ _ h (by simp) t ht).1

/-- Claim C5: a statement supplying only a width clause, a height
clause and a shape name parses into a Shape positioned at the origin,
with both colors black and rounded false.  The thirteen tokens are a
full program: w : NUMBER px , h : NUMBER px , shape-name ; EOF, with
arbitrary literal texts and positions; 14 is the fuel the parse wrapper
passes for this stream. -/
theorem c5_defaults (t₁ t₂ t₃ t₄ t₅ t₆ t₇ t₈ t₉ t₁₀ t₁₁ t₁₂ t₁₃ : Token)
    (h₁ : t₁.type = TokenType.WIDTH) (h₂ : t₂.type = TokenType.COLON)
    (h₃ : t₃.type = TokenType.NUMBER) (h₄ : t₄.type = TokenType.PX)
    (h₅ : t₅.type = TokenType.COMMA) (h₆ : t₆.type = TokenType.HEIGHT)
    (h₇ : t₇.type = TokenType.COLON) (h₈ : t₈.type = TokenType.NUMBER)
    (h₉ : t₉.type = TokenType.PX) (h₁₀ : t₁₀.type = TokenType.COMMA)
    (h₁₁ : isShapeNameTok t₁₁)
    (h₁₂ : t₁₂.type = TokenType.SEMICOLON)
    (h₁₃ : t₁₃.type = TokenType.EOF) :
    parseProgramF 14 [t₁, t₂, t₃, t₄, t₅, t₆, t₇, t₈, t₉, t₁₀, t₁₁, t₁₂, t₁₃] =
      .ok [Shape.mk t₁₁.value (Position.mk 0 0)
        (Size.mk (SimpleUITransformer.NUMBER t₃.value)
          (SimpleUITransformer.NUMBER t₈.value))
        (Color.make "#000000") (Color.make "#000000") false] := by
  obtain ⟨y₁, v₁, l₁, k₁⟩ := t₁
  obtain ⟨y₂, v₂, l₂, k₂⟩ := t₂
  obtain ⟨y₃, v₃, l₃, k₃⟩ := t₃
  obtain ⟨y₄, v₄, l₄, k₄⟩ := t₄
  obtain ⟨y₅, v₅, l₅, k₅⟩ := t₅
  obtain ⟨y₆, v₆, l₆, k₆⟩ := t₆
  obtain ⟨y₇, v₇, l₇, k₇⟩ := t₇
  obtain ⟨y₈, v₈, l₈, k₈⟩ := t₈
  obtain ⟨y₉, v₉, l₉, k₉⟩ := t₉
  obtain ⟨y₁₀, v₁₀, l₁₀, k₁₀⟩ := t₁₀
  obtain ⟨y₁₁, v₁₁, l₁₁, k₁₁⟩ := t₁₁
  obtain ⟨y₁₂, v₁₂, l₁₂, k₁₂⟩ := t₁₂
  obtain ⟨y₁₃, v₁₃, l₁₃, k₁₃⟩ := t₁₃
  cases h₁; cases h₂; cases h₃; cases h₄; cases h₅; cases h₆; cases h₇
  cases h₈; cases h₉; cases h₁₀; cases h₁₂; cases h₁₃
  rcases h₁₁ with h | h | h <;> cases h <;> rfl

/-- Claim C5 witness at the program w:100px, h:100px, circle; . -/
theorem c5_defaults_witness :
    isShapeNameTok (Token.mk TokenType.CIRCLE "circle" 1 19) ∧
    parseProgramF 14
      [Token.mk .WIDTH "w" 1 1, Token.mk .COLON ":" 1 2,
       Token.mk .NUMBER "100" 1 3, Token.mk .PX "px" 1 6,
       Token.mk .COMMA "," 1 8, Token.mk .HEIGHT "h" 1 10,
       Token.mk .COLON ":" 1 11, Token.mk .NUMBER "100" 1 12,
       Token.mk .PX "px" 1 15, Token.mk .COMMA "," 1 17,
       Token.mk .CIRCLE "circle" 1 19, Token.mk .SEMICOLON ";" 1 25,
       Token.mk .EOF "" 1 26] =
      .ok [Shape.mk "circle" (Position.mk 0 0)
        (Size.mk (SimpleUITransformer.NUMBER "100")
          (SimpleUITransformer.NUMBER "100"))
        (Color.make "#000000") (Color.make "#000000") false] :=
  ⟨Or.inr (Or.inl rfl),
    c5_defaults _ _ _ _ _ _ _ _ _ _ _ _ _ rfl rfl rfl rfl rfl rfl rfl rfl rfl
      rfl (Or.inr (Or.inl rfl)) rfl rfl⟩

/-- Shapes produced by the program rule correspond one to one, in
order, to the textual statement decomposition, each through the
transformer. -/
theorem parseProgramF_statements (fuel : Nat) :
    ∀ (ts : List Token) (shapes : List Shape),
      parseProgramF fuel ts = .ok shapes →
      ∃ stmts, statementsOfF fuel ts = .ok stmts ∧
        List.Forall₂
          (fun st sh => SimpleUITransformer.shape st.1 st.2 = .ok sh)
          stmts shapes := by
  induction fuel with
  | zero => intro ts shapes h; simp [parseProgramF] at h
  | succ fuel ih =>
    intro ts shapes h
    cases ts with
    | nil =>
      simp only [parseProgramF] at h
      cases h
      exact ⟨[], rfl, List.Forall₂.nil⟩
    | cons t rest =>
      simp only [parseProgramF] at h
      by_cases he : t.type = TokenType.EOF
      · rw [if_pos he] at h
        cases h
        refine ⟨[], ?_, List.Forall₂.nil⟩
        simp only [statementsOfF]
        rw [if_pos he]
      · rw [if_neg he] at h
        cases hps : parseShapeStmtF (fuel + 1) (t :: rest) with
        | error e => simp only [hps] at h; exact absurd h (by simp)
        | ok r =>
          obtain ⟨cls, nm, rest2⟩ := r
          simp only [hps] at h
          cases hsh : SimpleUITransformer.shape cls nm with
          | error m => simp only [hsh] at h; exact absurd h (by simp)
          | ok sh =>
            simp only [hsh] at h
            cases hrec : parseProgramF fuel rest2 with
            | error e => simp only [hrec] at h; exact absurd h (by simp)
            | ok shs =>
              simp only [hrec] at h
              cases h
              obtain ⟨stmts, hst, hf⟩ := ih rest2 shs hrec
              refine ⟨(cls, nm) :: stmts, ?_, List.Forall₂.cons hsh hf⟩
              simp only [statementsOfF]
              rw [if_neg he]
              simp only [hps, hst]

/-- Claim C2: a successful parse yields exactly one Shape per parsed
statement, in textual statement order: the shape list corresponds
elementwise, in order, to the statement decomposition of the token
stream, with no reordering, deduplication or merging. -/
theorem c2_order_preserved (src : String) (sl : ShapeList)
    (h : parse src = .ok sl) :
    ∃ toks stmts, tokenize src = .ok toks ∧ statementsOf toks = .ok stmts ∧
      sl.shapes.length = stmts.length ∧
      List.Forall₂ (fun st sh => SimpleUITransformer.shape st.1 st.2 = .ok sh)
        stmts sl.shapes := by
  unfold parse at h
  cases ht : tokenize src with
  | error e => simp only [ht] at h; exact absurd h (by simp)
  | ok toks =>
    simp only [ht] at h
    cases hp : parseProgramF (toks.length + 1) toks with
    | error e => simp only [hp] at h; exact absurd h (by simp)
    | ok shapes =>
      simp only [hp] at h
      cases h
      obtain ⟨stmts, hst, hf⟩ := parseProgramF_statements _ _ _ hp
      exact ⟨toks, stmts, rfl, hst, (List.Forall₂.length_eq hf).symm, hf⟩

/-- Claim C2 witness: a circle statement followed by a line statement
parses into a two-element list, circle first, line second. -/
theorem c2_order_preserved_witness :
    parse "w:10px,h:10px,circle; w:20px,h:20px,line;" = .ok (ShapeList.mk
      [Shape.mk "circle" (Position.mk 0 0)
        (Size.mk (ratOfLit "10") (ratOfLit "10"))
        (Color.make "#000000") (Color.make "#000000") false,
       Shape.mk "line" (Position.mk 0 0)
        (Size.mk (ratOfLit "20") (ratOfLit "20"))
        (Color.make "#000000") (Color.make "#000000") false]) ∧
    (∃ toks stmts,
      tokenize "w:10px,h:10px,circle; w:20px,h:20px,line;" = .ok toks ∧
      statementsOf toks = .ok stmts ∧
      (ShapeList.mk
        [Shape.mk "circle" (Position.mk 0 0)
          (Size.mk (ratOfLit "10") (ratOfLit "10"))
          (Color.make "#000000") (Color.make "#000000") false,
         Shape.mk "line" (Position.mk 0 0)
          (Size.mk (ratOfLit "20") (ratOfLit "20"))
          (Color.make "#000000") (Color.make "#000000") false]).shapes.length =
        stmts.length ∧
      List.Forall₂ (fun st sh => SimpleUITransformer.shape st.1 st.2 = .ok sh)
        stmts
        (ShapeList.mk
          [Shape.mk "circle" (Position.mk 0 0)
            (Size.mk (ratOfLit "10") (ratOfLit "10"))
            (Color.make "#000000") (Color.make "#000000") false,
           Shape.mk "line" (Position.mk 0 0)
            (Size.mk (ratOfLit "20") (ratOfLit "20"))
            (Color.make "#000000") (Color.make "#000000") false]).shapes) :=
  ⟨rfl, c2_order_preserved "w:10px,h:10px,circle; w:20px,h:20px,line;" _ rfl⟩

/-- Claim C8: every failure the core propagates is one of three
distinct, inspectable error values, lexical, syntactic or semantic,
distinguishable by kind; one concrete input of each kind is exhibited,
the semantic one being the missing-width statement. -/
theorem c8_error_kinds :
    (∀ (src : String) (e : CoreErr), parse src = .error e →
      e.kind = ErrKind.lexical ∨ e.kind = ErrKind.syntactic ∨
        e.kind = ErrKind.semantic) ∧
    (∃ e, parse "$" = .error e ∧ e.kind = ErrKind.lexical) ∧
    (∃ e, parse "rectangle" = .error e ∧ e.kind = ErrKind.syntactic) ∧
    (∃ e, parse "h:100px, rectangle;" = .error e ∧
      e.kind = ErrKind.semantic) ∧
    (ErrKind.lexical ≠ ErrKind.syntactic ∧
      ErrKind.lexical ≠ ErrKind.semantic ∧
      ErrKind.syntactic ≠ ErrKind.semantic) := by
  refine ⟨?_, ⟨_, rfl, rfl⟩, ⟨_, rfl, rfl⟩, ⟨_, rfl, rfl⟩,
    by decide, by decide, by decide⟩
  intro src e _
  cases e with
  | lexical m l c => exact Or.inl rfl
  | syntactic m => exact Or.inr (Or.inl rfl)
  | semantic m => exact Or.inr (Or.inr rfl)

/-- Claim C8 witness at the unexpected-character input. -/
theorem c8_error_kinds_witness :
    parse "$" = .error (CoreErr.lexical (unexpErrMsg '$') 1 1) ∧
    ((CoreErr.lexical (unexpErrMsg '$') 1 1).kind = ErrKind.lexical ∨
     (CoreErr.lexical (unexpErrMsg '$') 1 1).kind = ErrKind.syntactic ∨
     (CoreErr.lexical (unexpErrMsg '$') 1 1).kind = ErrKind.semantic) :=
  ⟨rfl, c8_error_kinds.1 "$" _ rfl⟩

/-- Claim C10 witness on the source a; . -/
theorem c10_no_invalid_witness :
    tokenize "a;" = .ok
      [Token.mk .COLOR_NAME "a" 1 1, Token.mk .SEMICOLON ";" 1 2,
        Token.mk .EOF "" 1 3] ∧
    ∀ t ∈ [Token.mk TokenType.COLOR_NAME "a" 1 1,
        Token.mk TokenType.SEMICOLON ";" 1 2, Token.mk TokenType.EOF "" 1 3],
      t.type ≠ TokenType.INVALID :=
  ⟨rfl, c10_no_invalid "a;" _ rfl⟩

/-- One character of the canonical form of spec section 3: an uppercase
hexadecimal digit, as in the character class of the pattern. -/
def isUpperHexDigit (c : Char) : Bool :=
  decide (('0' ≤ c ∧ c ≤ '9') ∨ ('A' ≤ c ∧ c ≤ 'F'))

/-- The canonical-color pattern of spec section 3: a hash followed by
exactly six uppercase hexadecimal digits. -/
def matchesCanonHex (s : String) : Bool :=
  (s.data.head? == some '#') && (s.data.tail.length == 6) &&
    s.data.tail.all isUpperHexDigit

theorem hexChar_toUpper (c : Char) (h : isHexChar c = true) :
    isUpperHexDigit (Char.toUpper c) = true := by
  have hm : c ∈ hexDigitChars := of_decide_eq_true h
  fin_cases hm <;> decide

/-- Constructing a Color from a well-formed hex-token value yields a
canonical hex string. -/
theorem colorMake_hex_wf (v : String) (h : hexTokenWF v = true) :
    matchesCanonHex (Color.make v).hex_value = true := by
  unfold hexTokenWF at h
  rw [Bool.and_eq_true, Bool.and_eq_true] at h
  obtain ⟨⟨hhead, hlen⟩, hall⟩ := h
  cases hv : v.data with
  | nil => rw [hv] at hhead; simp at hhead
  | cons c rest =>
    rw [hv] at hhead hlen hall
    simp only [List.head?_cons, beq_iff_eq, Option.some.injEq] at hhead
    subst hhead
    simp only [List.tail_cons] at hlen hall
    simp only [Color.make, hv, List.head?_cons]
    rw [if_pos trivial]
    simp only [List.map_cons, show Char.toUpper '#' = '#' from rfl]
    unfold matchesCanonHex
    rw [Bool.and_eq_true, Bool.and_eq_true]
    refine ⟨⟨rfl, ?_⟩, ?_⟩
    · simp only [List.tail_cons, List.length_map]
      exact hlen
    · simp only [List.tail_cons]
      rw [List.all_eq_true] at hall ⊢
      intro c hc
      obtain ⟨d, hd, rfl⟩ := List.mem_map.mp hc
      exact hexChar_toUpper d (hall d hd)

/-- Every Color the NAME transformation can produce is canonical. -/
theorem NAME_matches (s : String) :
    matchesCanonHex (SimpleUITransformer.NAME s).hex_value = true := by
  unfold SimpleUITransformer.NAME
  cases hv : lookupL colorMap (pyLower s) with
  | none => simp only [hv, Option.getD_none]; decide
  | some v =>
    simp only [hv, Option.getD_some]
    have hm := lookupL_mem _ _ _ hv
    fin_cases hm <;> decide

/-- Colors carried by a property clause are canonical. -/
def clauseColorsOK : PropClause → Prop
  | .fill c => matchesCanonHex c.hex_value = true
  | .outside c => matchesCanonHex c.hex_value = true
  | _ => True

/-- Colors stored in a property set are canonical. -/
def propsColorsOK (p : ShapeProps) : Prop :=
  (∀ c, p.fill = some c → matchesCanonHex c.hex_value = true) ∧
  (∀ c, p.outside = some c → matchesCanonHex c.hex_value = true)

theorem propsColorsOK_default : propsColorsOK defaultProps :=
  ⟨fun _ h => Option.noConfusion h, fun _ h => Option.noConfusion h⟩

theorem propsColorsOK_apply (p : ShapeProps) (cl : PropClause)
    (hp : propsColorsOK p) (hc : clauseColorsOK cl) :
    propsColorsOK (applyClause p cl) := by
  cases cl with
  | fill c => exact ⟨fun c' h => (Option.some.inj h) ▸ hc, hp.2⟩
  | outside c => exact ⟨hp.1, fun c' h => (Option.some.inj h) ▸ hc⟩
  | left v => exact hp
  | top v => exact hp
  | width v => exact hp
  | height v => exact hp
  | rounded => exact hp

theorem propsColorsOK_foldl (cls : List PropClause)
    (h : ∀ c ∈ cls, clauseColorsOK c) :
    ∀ p, propsColorsOK p → propsColorsOK (cls.foldl applyClause p) := by
  induction cls with
  | nil => exact fun p hp => hp
  | cons cl t ih =>
    intro p hp
    rw [List.foldl_cons]
    exact ih (fun c hc => h c (List.mem_cons_of_mem cl hc)) _
      (propsColorsOK_apply p cl hp (h cl (List.mem_cons_self cl t)))

/-- A Shape the transformer builds from clauses with canonical colors
has canonical fill and outside colors. -/
theorem shape_colors (cls : List PropClause) (nm : String) (sh : Shape)
    (hcls : ∀ c ∈ cls, clauseColorsOK c)
    (h : SimpleUITransformer.shape cls nm = .ok sh) :
    matchesCanonHex sh.fill_color.hex_value = true ∧
    matchesCanonHex sh.outside_color.hex_value = true := by
  obtain ⟨-, -, -, -, hfill, hout, -⟩ := shape_ok_props _ _ _ h
  have hps := propsColorsOK_foldl cls hcls defaultProps propsColorsOK_default
  constructor
  · rw [hfill]
    cases hf : (cls.foldl applyClause defaultProps).fill with
    | none => simp only [Option.getD_none]; decide
    | some cc => simp only [Option.getD_some]; exact hps.1 cc hf
  · rw [hout]
    cases hf : (cls.foldl applyClause defaultProps).outside with
    | none => simp only [Option.getD_none]; decide
    | some cc => simp only [Option.getD_some]; exact hps.2 cc hf

theorem goodTail {t : Token} {ts : List Token}
    (h : ∀ u ∈ t :: ts, goodToken u) : ∀ u ∈ ts, goodToken u :=
  fun u hu => h u (List.mem_cons_of_mem _ hu)

theorem parseColor_colors (ts : List Token) (col : Color) (rest : List Token)
    (hts : ∀ t ∈ ts, goodToken t) (h : parseColor ts = .ok (col, rest)) :
    matchesCanonHex col.hex_value = true ∧ ∀ t ∈ rest, goodToken t := by
  cases ts with
  | nil => simp [parseColor] at h
  | cons t ts' =>
    simp only [parseColor] at h
    by_cases h1 : t.type = TokenType.HEX_COLOR
    · rw [if_pos h1] at h
      cases h
      refine ⟨?_, goodTail hts⟩
      exact colorMake_hex_wf _ ((hts t (List.mem_cons_self _ _)).2 h1)
    · rw [if_neg h1] at h
      by_cases h2 : t.type = TokenType.COLOR_NAME
      · rw [if_pos h2] at h
        cases h
        exact ⟨NAME_matches _, goodTail hts⟩
      · rw [if_neg h2] at h
        exact absurd h (by simp)

theorem parseProperty_colors (ts : List Token) (cl : PropClause)
    (rest : List Token) (hts : ∀ t ∈ ts, goodToken t)
    (h : parseProperty ts = .ok (cl, rest)) :
    clauseColorsOK cl ∧ ∀ t ∈ rest, goodToken t := by
  cases ts with
  | nil => simp [parseProperty] at h
  | cons t ts' =>
    obtain ⟨ty, v, l, co⟩ := t
    cases ty <;> simp only [parseProperty] at h
    case NUMBER =>
      cases ts' with
      | nil => exact absurd h (by simp)
      | cons p ts'' =>
        cases ts'' with
        | nil => exact absurd h (by simp)
        | cons d rest2 =>
          simp only [] at h
          by_cases hl : p.type = TokenType.PX ∧ d.type = TokenType.LEFT
          · rw [if_pos hl] at h
            cases h
            exact ⟨trivial, goodTail (goodTail (goodTail hts))⟩
          · rw [if_neg hl] at h
            by_cases htp : p.type = TokenType.PX ∧ d.type = TokenType.TOP
            · rw [if_pos htp] at h
              cases h
              exact ⟨trivial, goodTail (goodTail (goodTail hts))⟩
            · rw [if_neg htp] at h
              exact absurd h (by simp)
    case WIDTH =>
      cases ts' with
      | nil => exact absurd h (by simp)
      | cons c1 ts'' =>
        cases ts'' with
        | nil => exact absurd h (by simp)
        | cons n ts''' =>
          cases ts''' with
          | nil => exact absurd h (by simp)
          | cons p rest2 =>
            simp only [] at h
            by_cases hc : c1.type = TokenType.COLON ∧
                n.type = TokenType.NUMBER ∧ p.type = TokenType.PX
            · rw [if_pos hc] at h
              cases h
              exact ⟨trivial, goodTail (goodTail (goodTail (goodTail hts)))⟩
            · rw [if_neg hc] at h
              exact absurd h (by simp)
    case HEIGHT =>
      cases ts' with
      | nil => exact absurd h (by simp)
      | cons c1 ts'' =>
        cases ts'' with
        | nil => exact absurd h (by simp)
        | cons n ts''' =>
          cases ts''' with
          | nil => exact absurd h (by simp)
          | cons p rest2 =>
            simp only [] at h
            by_cases hc : c1.type = TokenType.COLON ∧
                n.type = TokenType.NUMBER ∧ p.type = TokenType.PX
            · rw [if_pos hc] at h
              cases h
              exact ⟨trivial, goodTail (goodTail (goodTail (goodTail hts)))⟩
            · rw [if_neg hc] at h
              exact absurd h (by simp)
    case FILL =>
      cases ts' with
      | nil => exact absurd h (by simp)
      | cons c1 rest2 =>
        simp only [] at h
        by_cases hc : c1.type = TokenType.COLON
        · rw [if_pos hc] at h
          cases hpc : parseColor rest2 with
          | error e => simp only [hpc] at h; exact absurd h (by simp)
          | ok r =>
            obtain ⟨col, rest3⟩ := r
            simp only [hpc] at h
            cases h
            obtain ⟨hcol, hrest3⟩ :=
              parseColor_colors _ _ _ (goodTail (goodTail hts)) hpc
            exact ⟨hcol, hrest3⟩
        · rw [if_neg hc] at h
          exact absurd h (by simp)
    case OUTSIDE =>
      cases ts' with
      | nil => exact absurd h (by simp)
      | cons c1 rest2 =>
        simp only [] at h
        by_cases hc : c1.type = TokenType.COLON
        · rw [if_pos hc] at h
          cases hpc : parseColor rest2 with
          | error e => simp only [hpc] at h; exact absurd h (by simp)
          | ok r =>
            obtain ⟨col, rest3⟩ := r
            simp only [hpc] at h
            cases h
            obtain ⟨hcol, hrest3⟩ :=
              parseColor_colors _ _ _ (goodTail (goodTail hts)) hpc
            exact ⟨hcol, hrest3⟩
        · rw [if_neg hc] at h
          exact absurd h (by simp)
    case ROUNDED =>
      cases h
      exact ⟨trivial, goodTail hts⟩
    all_goals exact absurd h (by simp)

theorem parseShapeStmtF_colors (fuel : Nat) :
    ∀ (ts : List Token) (cls : List PropClause) (nm : String)
      (rest : List Token), (∀ t ∈ ts, goodToken t) →
      parseShapeStmtF fuel ts = .ok (cls, nm, rest) →
      (∀ c ∈ cls, clauseColorsOK c) ∧ ∀ t ∈ rest, goodToken t := by
  induction fuel with
  | zero => intro ts cls nm rest hts h; simp [parseShapeStmtF] at h
  | succ fuel ih =>
    intro ts cls nm rest hts h
    cases ts with
    | nil => simp [parseShapeStmtF] at h
    | cons t rest0 =>
      simp only [parseShapeStmtF] at h
      by_cases hs : isShapeNameTok t
      · rw [if_pos hs] at h
        cases rest0 with
        | nil => exact absurd h (by simp)
        | cons s rest2 =>
          simp only [] at h
          by_cases hsem : s.type = TokenType.SEMICOLON
          · rw [if_pos hsem] at h
            cases h
            exact ⟨by simp, goodTail (goodTail hts)⟩
          · rw [if_neg hsem] at h
            exact absurd h (by simp)
      · rw [if_neg hs] at h
        cases hpp : parseProperty (t :: rest0) with
        | error e => simp only [hpp] at h; exact absurd h (by simp)
        | ok r =>
          obtain ⟨cl, rest2⟩ := r
          simp only [hpp] at h
          obtain ⟨hcl, hrest2⟩ := parseProperty_colors _ _ _ hts hpp
          cases rest2 with
          | nil => exact absurd h (by simp)
          | cons s rest3 =>
            simp only [] at h
            by_cases hcm : s.type = TokenType.COMMA
            · rw [if_pos hcm] at h
              cases hrec : parseShapeStmtF fuel rest3 with
              | error e => simp only [hrec] at h; exact absurd h (by simp)
              | ok r2 =>
                obtain ⟨cls2, nm2, rest4⟩ := r2
                simp only [hrec] at h
                cases h
                obtain ⟨hcls2, hrest4⟩ :=
                  ih _ _ _ _ (goodTail hrest2) hrec
                refine ⟨?_, hrest4⟩
                intro c hc
                rcases List.mem_cons.mp hc with rfl | hc2
                · exact hcl
                · exact hcls2 c hc2
            · rw [if_neg hcm] at h
              exact absurd h (by simp)

theorem parseProgramF_colors (fuel : Nat) :
    ∀ (ts : List Token) (shapes : List Shape),
      (∀ t ∈ ts, goodToken t) → parseProgramF fuel ts = .ok shapes →
      ∀ sh ∈ shapes, matchesCanonHex sh.fill_color.hex_value = true ∧
        matchesCanonHex sh.outside_color.hex_value = true := by
  induction fuel with
  | zero => intro ts shapes _ h; simp [parseProgramF] at h
  | succ fuel ih =>
    intro ts shapes hts h
    cases ts with
    | nil =>
      simp only [parseProgramF] at h
      cases h
      simp
    | cons t rest =>
      simp only [parseProgramF] at h
      by_cases he : t.type = TokenType.EOF
      · rw [if_pos he] at h
        cases h
        simp
      · rw [if_neg he] at h
        cases hps : parseShapeStmtF (fuel + 1) (t :: rest) with
        | error e => simp only [hps] at h; exact absurd h (by simp)
        | ok r =>
          obtain ⟨cls, nm, rest2⟩ := r
          simp only [hps] at h
          cases hsh : SimpleUITransformer.shape cls nm with
          | error m => simp only [hsh] at h; exact absurd h (by simp)
          | ok sh =>
            simp only [hsh] at h
            cases hrec : parseProgramF fuel rest2 with
            | error e => simp only [hrec] at h; exact absurd h (by simp)
            | ok shs =>
              simp only [hrec] at h
              cases h
              obtain ⟨hcls, hrest2⟩ := parseShapeStmtF_colors _ _ _ _ _ hts hps
              intro u hu
              rcases List.mem_cons.mp hu with rfl | hu2
              · exact shape_colors cls nm u hcls hsh
              · exact ih rest2 shs hrest2 hrec u hu2

/-- Claim C9 counterexample: the Color constructor itself does not
validate; constructed from xyz it yields #XYZ, which does not match the
canonical pattern. -/
theorem c9_counterexample :
    (Color.make "xyz").hex_value = "#XYZ" ∧
    matchesCanonHex (Color.make "xyz").hex_value = false := ⟨rfl, rfl⟩

/-- Claim C9 (amended): every Color constructed from six hex digits,
with or without a leading hash, is canonical, and every Color in the
ShapeList a successful parse returns matches the canonical pattern
hash-plus-six-uppercase-hex. -/
theorem c9_canonical_hex :
    (∀ ds : List Char, ds.length = 6 → (∀ c ∈ ds, isHexChar c = true) →
      matchesCanonHex (Color.make (String.mk ds)).hex_value = true ∧
      matchesCanonHex (Color.make (String.mk ('#' :: ds))).hex_value = true) ∧
    (∀ (src : String) (sl : ShapeList), parse src = .ok sl →
      ∀ sh ∈ sl.shapes, matchesCanonHex sh.fill_color.hex_value = true ∧
        matchesCanonHex sh.outside_color.hex_value = true) := by
  constructor
  · intro ds h6 hhex
    have hwf : hexTokenWF (String.mk ('#' :: ds)) = true := by
      unfold hexTokenWF
      rw [Bool.and_eq_true, Bool.and_eq_true]
      refine ⟨⟨rfl, ?_⟩, ?_⟩
      · simp only [List.tail_cons, h6]
        rfl
      · simp only [List.tail_cons]
        rw [List.all_eq_true]
        exact hhex
    have h2 := colorMake_hex_wf _ hwf
    have heq : Color.make (String.mk ds) = Color.make (String.mk ('#' :: ds)) := by
      cases ds with
      | nil => simp at h6
      | cons c t =>
        have hc : c ≠ '#' := isHexChar_ne_hash (hhex c (by simp))
        simp [Color.make, hc]
    exact ⟨heq ▸ h2, h2⟩
  · intro src sl h
    unfold parse at h
    cases ht : tokenize src with
    | error e => simp only [ht] at h; exact absurd h (by simp)
    | ok toks =>
      simp only [ht] at h
      cases hp : parseProgramF (toks.length + 1) toks with
      | error e => simp only [hp] at h; exact absurd h (by simp)
      | ok shapes =>
        simp only [hp] at h
        cases h
        have hgood : ∀ t ∈ toks, goodToken t :=
          tokenizeLoopF_good _ _ _ _ _ _ ht (by simp)
        exact parseProgramF_colors _ _ _ hgood hp

/-- Claim C9 witness at the six digits ff00aa. -/
theorem c9_canonical_hex_witness :
    ("ff00aa".data.length = 6 ∧ ∀ c ∈ "ff00aa".data, isHexChar c = true) ∧
    (matchesCanonHex (Color.make (String.mk "ff00aa".data)).hex_value = true ∧
     matchesCanonHex
       (Color.make (String.mk ('#' :: "ff00aa".data))).hex_value = true) :=
  ⟨⟨rfl, by decide⟩, c9_canonical_hex.1 "ff00aa".data rfl (by decide)⟩
